import Mathlib

/-!
Verification development for the ScrapingAPI catalog crawl engine
(`app/services/scraping_service.py` and the data model in
`app/domain/models.py` / `app/utils/text.py`).

The Python code is shallowly embedded: pure fragments become Lean
functions; the HTTP collaborators become explicit oracle arguments
(a listing-page oracle for the pagination crawl, a finite list of
window responses for the windowed REST search, a per-item fetch
result for detail enrichment).  Python string truthiness (where
`None` and the empty string are both falsy) is modelled explicitly.
`precio` is a Python float that the engine never does arithmetic on
(it is only tested against `None` and copied), so it is embedded as
an opaque `Option Rat` value.
-/

namespace Scrape

/-- Embedding of `app/domain/models.py` `Category` (breadcrumb node). -/
structure Category where
  id : Option Int := none
  name : String
  slug : Option String := none
  url : Option String := none
  parent_id : Int := 0
deriving DecidableEq, Repr

/-- Embedding of `app/domain/models.py` `Product`.  All fields are nullable
as in the pydantic model; `precio` is an opaque numeric value. -/
structure Product where
  id : Option Int := none
  sku_id : Option String := none
  product_id : Option String := none
  nombre_producto : Option String := none
  marca : Option String := none
  categoria_comerciante_id : Option String := none
  categoria_id : Option String := none
  nombre_categoria : Option String := none
  unidad : Option String := none
  precio : Option Rat := none
  tipo_precio : Option String := none
  imagen : Option String := none
  url_producto : Option String := none
  categorias : List Category := []
deriving DecidableEq, Repr

/-- Python-style split of a character list at a separator character
(splitting the empty text yields one empty segment, as in Python). -/
def pySplit (sep : Char) : List Char → List (List Char)
  | [] => [[]]
  | c :: cs =>
    match pySplit sep cs with
    | h :: t => if c = sep then [] :: h :: t else (c :: h) :: t
    | [] => [[]]

/-- ASCII lower-casing, standing in for Python `str.lower` (every slug the
engine compares is ASCII). -/
def pyLower (s : String) : String := ⟨s.data.map Char.toLower⟩

/-- Python `str.rstrip(sep)` for a single separator character. -/
def pyRstrip (sep : Char) (s : String) : String :=
  ⟨(s.data.reverse.dropWhile (· = sep)).reverse⟩

/-- Python whitespace as recognised by `str.strip()`. -/
def pyIsSpace (c : Char) : Bool :=
  c = ' ' || c = '\t' || c = '\n' || c = '\r' || c = '\x0b' || c = '\x0c'

/-- Python `str.strip()`. -/
def pyStrip (s : String) : String :=
  ⟨((s.data.dropWhile pyIsSpace).reverse.dropWhile pyIsSpace).reverse⟩

/-- Python string slice `s[:n]`. -/
def pyTake (s : String) (n : Nat) : String := ⟨s.data.take n⟩

/-- Python `len(s)`. -/
def pyLen (s : String) : Nat := s.data.length

/-- Python truthiness of an optional string: `None` and `""` are falsy. -/
def strTruthy : Option String → Bool
  | none => false
  | some s => s ≠ ""

/-- Python `a or b` on optional strings (`b` is used when `a` is falsy,
i.e. when `a` is `None` or the empty string). -/
def pyOrStr (a b : Option String) : Option String :=
  if strTruthy a then a else b

/-- Python `str(x)` on an optional string: `str(None)` is the literal
string "None". -/
def pyStr : Option String → String
  | none => "None"
  | some s => s

/-- Embedding of `app/utils/text.py` `truncate`. -/
def truncate : Option String → Nat → Option String
  | none, _ => none
  | some s, maxLen => some (if pyLen s > maxLen then pyTake s maxLen else s)

/-- Embedding of `app/utils/text.py` `coerce_str_id` (restricted to string
inputs, which is how the crawl engine calls it). -/
def coerce_str_id : Option String → Nat → Option String
  | none, _ => none
  | some v, maxLen =>
      let s := pyStrip v
      if s = "" then none else some (pyTake s maxLen)

/-- A breadcrumb crumb as produced by the breadcrumb extractor:
a record with `name`, `slug`, `url` keys, each possibly null. -/
structure Crumb where
  name : Option String := none
  slug : Option String := none
  url : Option String := none
deriving DecidableEq, Repr

/-- The detail-page product record as read by `_enrich_from_detail`
(keys `imagen`, `marca`, `sku_id`, `product_id`, `precio`; a missing
key reads as `None`). -/
structure DetailData where
  imagen : Option String := none
  marca : Option String := none
  sku_id : Option String := none
  product_id : Option String := none
  precio : Option Rat := none
deriving DecidableEq, Repr

/-- The product slug used by the category heuristic:
Python `(str(p.url_producto).rstrip(sep).split(sep)[-1] or empty).lower()`
with separator the slash character. -/
def prodSlug (url : String) : String :=
  let stripped := pyRstrip '/' url
  pyLower ⟨(pySplit '/' stripped.data).getLastD []⟩

/-- Lower-cased slug of a crumb, with a missing slug read as the empty
string, as in Python `(c.get(slug) or empty).lower()`. -/
def crumbSlugLower (c : Crumb) : String :=
  pyLower (c.slug.getD "")

/-- The breadcrumb filter of `_enrich_from_detail` line 90: keep crumbs
whose lower-cased slug is not "home", not empty and not the product slug. -/
def crumbCandidates (crumbs : List Crumb) (ps : String) : List Crumb :=
  crumbs.filter (fun c =>
    !(crumbSlugLower c == "home" || crumbSlugLower c == "" || crumbSlugLower c == ps))

/-- Embedding of `_enrich_from_detail` lines 86-91: the chosen category
crumb (`None` exactly when the crumb list is empty). -/
def chooseCrumb (crumbs : List Crumb) (urlStr : String) : Option Crumb :=
  if crumbs.isEmpty then none
  else
    let ps := prodSlug urlStr
    let candidates := crumbCandidates crumbs ps
    match candidates.getLast? with
    | some c => some c
    | none => if crumbs.length ≥ 2 then crumbs[crumbs.length - 2]? else crumbs.getLast?

/-- Embedding of `_enrich_from_detail` lines 93-95: back-fill of the
category fields from the chosen crumb. -/
def enrichCrumb (p : Product) (crumbs : List Crumb) : Product :=
  match chooseCrumb crumbs (pyStr p.url_producto) with
  | some c =>
      { p with
        nombre_categoria := pyOrStr p.nombre_categoria (truncate c.name 128)
        categoria_id := pyOrStr p.categoria_id (coerce_str_id c.slug 12) }
  | none => p

/-- Embedding of `_enrich_from_detail` lines 100-105: back-fill of
`imagen`, `marca`, `sku_id`, `precio` from the detail-page record. -/
def enrichDetail (p : Product) (detail : Option DetailData) : Product :=
  match detail with
  | some d =>
      { p with
        imagen := pyOrStr p.imagen d.imagen
        marca := pyOrStr p.marca (truncate d.marca 64)
        sku_id := pyOrStr p.sku_id (coerce_str_id (pyOrStr d.sku_id d.product_id) 12)
        precio := match p.precio with
                  | none => d.precio
                  | some x => some x }
  | none => p

/-- One successful enrichment of one product, given the crumbs and the
detail record obtained from its detail page (the body of `work` in
`_enrich_from_detail`). -/
def enrichOne (p : Product) (crumbs : List Crumb) (detail : Option DetailData) : Product :=
  enrichDetail (enrichCrumb p crumbs) detail

/-- One enrichment task (`work` in `_enrich_from_detail`): the fetch and
parse of the detail page is an oracle that either fails (the raised
exception, caught by the task) or yields crumbs plus an optional detail
record.  On failure the product is returned unchanged. -/
def work (fetch : Product → Except String (List Crumb × Option DetailData))
    (p : Product) : Product :=
  match fetch p with
  | .error _ => p
  | .ok (crumbs, detail) => enrichOne p crumbs detail

/-- Embedding of `_enrich_from_detail`: each product of the batch is
enriched by its own task, independently of the others; the concurrency
gate only bounds parallelism and does not affect the per-item outcome,
so the batch result is the pointwise map of `work`. -/
def enrichFromDetail (fetch : Product → Except String (List Crumb × Option DetailData))
    (products : List Product) : List Product :=
  products.map (work fetch)

/-- The canonical URL key used by the pagination dedup set:
Python `str(it.url_producto)`. -/
def urlKey (p : Product) : String := pyStr p.url_producto

/-- Embedding of the `scrape_all` page loop (lines 119-138).  The listing
origin is modelled as a finite list of pages, page `k` being the list of
products extracted from listing page `k`; pages beyond the end of the
list extract zero items.  `maxPages = 0` models an unset `MAX_PAGES`
(Python falsy), disabling the page bound.  The result is the collected
product list together with the list of page numbers actually fetched. -/
def scrapeAllGo (maxPages : Nat) :
    Nat → List (List Product) → List String → List Product → List Product × List Nat
  | page, [], _seen, collected =>
      if maxPages ≠ 0 ∧ page > maxPages then (collected, [])
      else (collected, [page])
  | page, items :: rest, seen, collected =>
      if maxPages ≠ 0 ∧ page > maxPages then (collected, [])
      else if items = [] then (collected, [page])
      else
        let new_items := items.filter (fun it => decide (urlKey it ∉ seen))
        let seen' := seen ++ items.map urlKey
        let r := scrapeAllGo maxPages (page + 1) rest seen' (collected ++ new_items)
        (r.1, page :: r.2)

/-- The product list returned by `scrape_all` (its pagination loop;
detail enrichment mutates fields of the collected products in place but
neither adds nor removes list entries). -/
def scrape_all (maxPages : Nat) (pages : List (List Product)) : List Product :=
  (scrapeAllGo maxPages 1 pages [] []).1

/-- The listing pages requested by `scrape_all`, in request order. -/
def scrapeAllRequested (maxPages : Nat) (pages : List (List Product)) : List Nat :=
  (scrapeAllGo maxPages 1 pages [] []).2

/-- One HTTP window response of the VTEX search endpoint: the status code
and the decoded JSON payload (a list of raw product entries of some
opaque type `α`, turned into `Product`s by `parse_vtex_rest`, which the
engine treats as an opaque collaborator). -/
structure WinResp (α : Type) where
  status : Nat
  body : List α

/-- The designated bad-range statuses of the VTEX loops (lines 178, 265):
HTTP 400 and 416 end the search gracefully. -/
def isBadRange (s : Nat) : Bool := s == 400 || s == 416

/-- httpx success statuses: `raise_for_status` raises for everything
outside 2xx. -/
def isSuccess (s : Nat) : Bool := 200 ≤ s && s ≤ 299

/-- The per-product dedup step shared by `scrape_vtex_rest` (lines
193-197), `_vtex_windowed_search` (lines 275-279) and the shard merge of
`scrape_vtex_rest_deep` (lines 311-315): a product is appended only when
its `sku_id` is truthy (present and nonempty) and not yet in the seen
set, in which case the SKU is also marked seen. -/
def skuStep (acc : List String × List Product) (p : Product) : List String × List Product :=
  match p.sku_id with
  | some sku => if sku ≠ "" ∧ sku ∉ acc.1 then (sku :: acc.1, acc.2 ++ [p]) else acc
  | none => acc

/-- Embedding of the `_vtex_windowed_search` loop (lines 259-283).  The
origin is modelled as a finite list of window responses consumed in
offset order; an exhausted response list behaves like an empty payload.
A non-2xx status other than 400/416 is the `raise_for_status` exception,
returned as `Except.error status`. -/
def vtexWindowedGo (parseF : List α → List Product) (pageSize : Nat) :
    List (WinResp α) → List String → List Product → Except Nat (List Product)
  | [], _seen, collected => .ok collected
  | w :: rest, seen, collected =>
      if isBadRange w.status then .ok collected
      else if ¬ isSuccess w.status then .error w.status
      else if w.body.isEmpty then .ok collected
      else
        let parsed := parseF w.body
        let st := parsed.foldl skuStep (seen, collected)
        if w.body.length < pageSize then .ok st.2
        else vtexWindowedGo parseF pageSize rest st.1 st.2

/-- The windowed search as called by the service: offset 0, empty seen
set, empty accumulator. -/
def vtexWindowedSearch (parseF : List α → List Product) (pageSize : Nat)
    (windows : List (WinResp α)) : Except Nat (List Product) :=
  vtexWindowedGo parseF pageSize windows [] []

/-- Embedding of the `scrape_vtex_rest` loop (lines 172-212), which
differs from `_vtex_windowed_search` only in accumulating the new rows
of a window into `new_rows` before extending `collected`. -/
def scrapeVtexRestGo (parseF : List α → List Product) (pageSize : Nat) :
    List (WinResp α) → List String → List Product → Except Nat (List Product)
  | [], _seen, collected => .ok collected
  | w :: rest, seen, collected =>
      if isBadRange w.status then .ok collected
      else if ¬ isSuccess w.status then .error w.status
      else if w.body.length = 0 then .ok collected
      else
        let parsed := parseF w.body
        let st := parsed.foldl skuStep (seen, [])
        let collected' := collected ++ st.2
        if w.body.length < pageSize then .ok collected'
        else scrapeVtexRestGo parseF pageSize rest st.1 collected'

/-- A leaf of the category facet tree as collected by
`_vtex_list_leaf_categories`. -/
structure Leaf where
  id : String
  name : Option String := none
  link : Option String := none
deriving DecidableEq, Repr

/-- Observable outcome of `scrape_vtex_rest_deep`: the merged product
list, how many times the facet endpoint was called, and the leaf ids for
which a shard windowed pass ran, in order. -/
structure DeepTrace where
  results : List Product
  facetFetches : Nat
  shardLeafIds : List String
deriving DecidableEq, Repr

/-- The shard loop of `scrape_vtex_rest_deep` (lines 307-315): one
windowed pass per leaf, merged into the accumulated result through the
shared SKU dedup step; a failing shard pass propagates its exception. -/
def deepShardsGo (shardWindows : String → List (WinResp α))
    (parseF : List α → List Product) (pageSize : Nat) :
    List Leaf → List String → List Product → List String → Except Nat DeepTrace
  | [], _seen, collected, ranIds => .ok ⟨collected, 1, ranIds.reverse⟩
  | leaf :: rest, seen, collected, ranIds =>
      match vtexWindowedSearch parseF pageSize (shardWindows leaf.id) with
      | .error s => .error s
      | .ok shard_results =>
          let st := shard_results.foldl skuStep (seen, collected)
          deepShardsGo shardWindows parseF pageSize rest st.1 st.2 (leaf.id :: ranIds)

/-- Embedding of `scrape_vtex_rest_deep` (lines 288-317).  The global
pass runs over `globalWindows`; when its result count reaches 2400 the
facet endpoint is consulted (modelled as yielding `leaves`) and one
shard windowed pass per leaf runs over `shardWindows leaf.id`.  The seen
set is seeded with the truthy SKUs of the global results. -/
def scrapeVtexRestDeep (parseF : List α → List Product) (pageSize : Nat)
    (globalWindows : List (WinResp α)) (leaves : List Leaf)
    (shardWindows : String → List (WinResp α)) : Except Nat DeepTrace :=
  match vtexWindowedSearch parseF pageSize globalWindows with
  | .error s => .error s
  | .ok global_results =>
      if global_results.length < 2400 then .ok ⟨global_results, 0, []⟩
      else
        let seen := (global_results.filterMap Product.sku_id).filter (fun s => s ≠ "")
        deepShardsGo shardWindows parseF pageSize leaves seen global_results []

/-! Frame lemmas for enrichment. -/

lemma enrichCrumb_frame (p : Product) (crumbs : List Crumb) :
    (enrichCrumb p crumbs).id = p.id ∧
    (enrichCrumb p crumbs).sku_id = p.sku_id ∧
    (enrichCrumb p crumbs).product_id = p.product_id ∧
    (enrichCrumb p crumbs).nombre_producto = p.nombre_producto ∧
    (enrichCrumb p crumbs).marca = p.marca ∧
    (enrichCrumb p crumbs).categoria_comerciante_id = p.categoria_comerciante_id ∧
    (enrichCrumb p crumbs).unidad = p.unidad ∧
    (enrichCrumb p crumbs).precio = p.precio ∧
    (enrichCrumb p crumbs).tipo_precio = p.tipo_precio ∧
    (enrichCrumb p crumbs).imagen = p.imagen ∧
    (enrichCrumb p crumbs).url_producto = p.url_producto ∧
    (enrichCrumb p crumbs).categorias = p.categorias := by
  unfold enrichCrumb
  cases chooseCrumb crumbs (pyStr p.url_producto) <;> simp

lemma enrichDetail_frame (p : Product) (d : Option DetailData) :
    (enrichDetail p d).id = p.id ∧
    (enrichDetail p d).product_id = p.product_id ∧
    (enrichDetail p d).nombre_producto = p.nombre_producto ∧
    (enrichDetail p d).categoria_comerciante_id = p.categoria_comerciante_id ∧
    (enrichDetail p d).categoria_id = p.categoria_id ∧
    (enrichDetail p d).nombre_categoria = p.nombre_categoria ∧
    (enrichDetail p d).unidad = p.unidad ∧
    (enrichDetail p d).tipo_precio = p.tipo_precio ∧
    (enrichDetail p d).url_producto = p.url_producto ∧
    (enrichDetail p d).categorias = p.categorias := by
  unfold enrichDetail
  cases d <;> simp

lemma work_frame (fetch : Product → Except String (List Crumb × Option DetailData))
    (p : Product) :
    (work fetch p).id = p.id ∧
    (work fetch p).product_id = p.product_id ∧
    (work fetch p).nombre_producto = p.nombre_producto ∧
    (work fetch p).categoria_comerciante_id = p.categoria_comerciante_id ∧
    (work fetch p).unidad = p.unidad ∧
    (work fetch p).tipo_precio = p.tipo_precio ∧
    (work fetch p).url_producto = p.url_producto ∧
    (work fetch p).categorias = p.categorias := by
  unfold work
  cases fetch p with
  | error e => simp
  | ok v =>
      obtain ⟨crumbs, detail⟩ := v
      obtain ⟨c1, c2, c3, c4, c5, c6, c7, c8, c9, c10, c11, c12⟩ := enrichCrumb_frame p crumbs
      obtain ⟨d1, d2, d3, d4, d5, d6, d7, d8, d9, d10⟩ :=
        enrichDetail_frame (enrichCrumb p crumbs) detail
      simp only [enrichOne]
      exact ⟨d1.trans c1, d2.trans c3, d3.trans c4, d4.trans c6, d7.trans c7,
        d8.trans c9, d9.trans c11, d10.trans c12⟩


lemma map_work_eq {β : Type} (fetch : Product → Except String (List Crumb × Option DetailData))
    (f : Product → β) (hf : ∀ p, f (work fetch p) = f p) :
    ∀ ps : List Product, (enrichFromDetail fetch ps).map f = ps.map f := by
  intro ps
  induction ps with
  | nil => rfl
  | cons a t ih =>
      simp only [enrichFromDetail, List.map_cons] at ih ⊢
      rw [hf a, ih]

/-- Claim C10: for every product of the batch, `_enrich_from_detail`
modifies at most `nombre_categoria`, `categoria_id`, `imagen`, `marca`,
`sku_id` and `precio`; the fields `nombre_producto`, `url_producto`,
`product_id`, `unidad`, `tipo_precio`, `categoria_comerciante_id` and
`categorias` (and the database `id`) are left unchanged — in particular
the product name is never refreshed from the detail page. -/
theorem C10_enrichment_frame :
    ∀ (fetch : Product → Except String (List Crumb × Option DetailData)) (ps : List Product),
    (enrichFromDetail fetch ps).map Product.nombre_producto = ps.map Product.nombre_producto ∧
    (enrichFromDetail fetch ps).map Product.url_producto = ps.map Product.url_producto ∧
    (enrichFromDetail fetch ps).map Product.product_id = ps.map Product.product_id ∧
    (enrichFromDetail fetch ps).map Product.unidad = ps.map Product.unidad ∧
    (enrichFromDetail fetch ps).map Product.tipo_precio = ps.map Product.tipo_precio ∧
    (enrichFromDetail fetch ps).map Product.categoria_comerciante_id
      = ps.map Product.categoria_comerciante_id ∧
    (enrichFromDetail fetch ps).map Product.categorias = ps.map Product.categorias ∧
    (enrichFromDetail fetch ps).map Product.id = ps.map Product.id := by
  intro fetch ps
  exact ⟨map_work_eq fetch _ (fun p => (work_frame fetch p).2.2.1) ps,
    map_work_eq fetch _ (fun p => (work_frame fetch p).2.2.2.2.2.2.1) ps,
    map_work_eq fetch _ (fun p => (work_frame fetch p).2.1) ps,
    map_work_eq fetch _ (fun p => (work_frame fetch p).2.2.2.2.1) ps,
    map_work_eq fetch _ (fun p => (work_frame fetch p).2.2.2.2.2.1) ps,
    map_work_eq fetch _ (fun p => (work_frame fetch p).2.2.2.1) ps,
    map_work_eq fetch _ (fun p => (work_frame fetch p).2.2.2.2.2.2.2) ps,
    map_work_eq fetch _ (fun p => (work_frame fetch p).1) ps⟩

/-! Per-field behaviour of one enrichment step. -/

lemma pyOrStr_truthy {a b : Option String} (h : strTruthy a = true) : pyOrStr a b = a := by
  simp [pyOrStr, h]

lemma pyOrStr_falsy {a b : Option String} (h : strTruthy a = false) : pyOrStr a b = b := by
  simp [pyOrStr, h]

lemma enrichOne_marca (p : Product) (crumbs : List Crumb) (d : DetailData) :
    (enrichOne p crumbs (some d)).marca = pyOrStr p.marca (truncate d.marca 64) := by
  have hc := (enrichCrumb_frame p crumbs).2.2.2.2.1
  simp only [enrichOne, enrichDetail]
  rw [hc]

lemma enrichOne_imagen (p : Product) (crumbs : List Crumb) (d : DetailData) :
    (enrichOne p crumbs (some d)).imagen = pyOrStr p.imagen d.imagen := by
  have hc := (enrichCrumb_frame p crumbs).2.2.2.2.2.2.2.2.2.1
  simp only [enrichOne, enrichDetail]
  rw [hc]

lemma enrichOne_sku_id (p : Product) (crumbs : List Crumb) (d : DetailData) :
    (enrichOne p crumbs (some d)).sku_id
      = pyOrStr p.sku_id (coerce_str_id (pyOrStr d.sku_id d.product_id) 12) := by
  have hc := (enrichCrumb_frame p crumbs).2.1
  simp only [enrichOne, enrichDetail]
  rw [hc]

lemma enrichOne_precio (p : Product) (crumbs : List Crumb) (d : DetailData) :
    (enrichOne p crumbs (some d)).precio
      = match p.precio with
        | none => d.precio
        | some x => some x := by
  have hc := (enrichCrumb_frame p crumbs).2.2.2.2.2.2.2.1
  simp only [enrichOne, enrichDetail]
  rw [hc]

lemma enrichOne_nombre_categoria (p : Product) (crumbs : List Crumb) (dd : Option DetailData) :
    (enrichOne p crumbs dd).nombre_categoria =
      match chooseCrumb crumbs (pyStr p.url_producto) with
      | some c => pyOrStr p.nombre_categoria (truncate c.name 128)
      | none => p.nombre_categoria := by
  have hd := (enrichDetail_frame (enrichCrumb p crumbs) dd).2.2.2.2.2.1
  simp only [enrichOne]
  rw [hd]
  unfold enrichCrumb
  cases chooseCrumb crumbs (pyStr p.url_producto) <;> simp

lemma enrichOne_categoria_id (p : Product) (crumbs : List Crumb) (dd : Option DetailData) :
    (enrichOne p crumbs dd).categoria_id =
      match chooseCrumb crumbs (pyStr p.url_producto) with
      | some c => pyOrStr p.categoria_id (coerce_str_id c.slug 12)
      | none => p.categoria_id := by
  have hd := (enrichDetail_frame (enrichCrumb p crumbs) dd).2.2.2.2.1
  simp only [enrichOne]
  rw [hd]
  unfold enrichCrumb
  cases chooseCrumb crumbs (pyStr p.url_producto) <;> simp

/-- Claim C4, counterexample to the claim as stated: a field that is
non-null but equal to the empty string does not keep its value.  The
product below has `marca = some ""` (non-null), the detail record
provides "Other", and after enrichment `marca` is "Other". -/
theorem C4_counterexample :
    (({ marca := some "" } : Product).marca ≠ none) ∧
    (enrichOne { marca := some "" } [] (some { marca := some "Other" })).marca
      = some "Other" := by
  constructor
  · decide
  · decide

/-- Claim C4, amended: the enrichment back-fill is fill-falsy for the
string fields — a field holding a non-null, nonempty string keeps its
value, while a field that is null or holds the empty string takes the
(truncated or coerced) detail-page or crumb-derived value — and
fill-null-only for `precio`, which keeps any non-null value. -/
theorem C4_fill_rules_amended :
    ∀ (p : Product) (crumbs : List Crumb) (d : DetailData),
    (∀ s, p.marca = some s → s ≠ "" →
        (enrichOne p crumbs (some d)).marca = some s) ∧
    (strTruthy p.marca = false →
        (enrichOne p crumbs (some d)).marca = truncate d.marca 64) ∧
    (∀ s, p.imagen = some s → s ≠ "" →
        (enrichOne p crumbs (some d)).imagen = some s) ∧
    (strTruthy p.imagen = false →
        (enrichOne p crumbs (some d)).imagen = d.imagen) ∧
    (∀ s, p.sku_id = some s → s ≠ "" →
        (enrichOne p crumbs (some d)).sku_id = some s) ∧
    (strTruthy p.sku_id = false →
        (enrichOne p crumbs (some d)).sku_id
          = coerce_str_id (pyOrStr d.sku_id d.product_id) 12) ∧
    (∀ s, p.nombre_categoria = some s → s ≠ "" →
        (enrichOne p crumbs (some d)).nombre_categoria = some s) ∧
    (∀ c, chooseCrumb crumbs (pyStr p.url_producto) = some c →
        strTruthy p.nombre_categoria = false →
        (enrichOne p crumbs (some d)).nombre_categoria = truncate c.name 128) ∧
    (∀ s, p.categoria_id = some s → s ≠ "" →
        (enrichOne p crumbs (some d)).categoria_id = some s) ∧
    (∀ c, chooseCrumb crumbs (pyStr p.url_producto) = some c →
        strTruthy p.categoria_id = false →
        (enrichOne p crumbs (some d)).categoria_id = coerce_str_id c.slug 12) ∧
    (∀ x, p.precio = some x → (enrichOne p crumbs (some d)).precio = some x) ∧
    (p.precio = none → (enrichOne p crumbs (some d)).precio = d.precio) := by
  intro p crumbs d
  refine ⟨?_, ?_, ?_, ?_, ?_, ?_, ?_, ?_, ?_, ?_, ?_, ?_⟩
  · intro s hs hne
    rw [enrichOne_marca, hs, pyOrStr_truthy (by simp [strTruthy, hne])]
  · intro hf
    rw [enrichOne_marca, pyOrStr_falsy hf]
  · intro s hs hne
    rw [enrichOne_imagen, hs, pyOrStr_truthy (by simp [strTruthy, hne])]
  · intro hf
    rw [enrichOne_imagen, pyOrStr_falsy hf]
  · intro s hs hne
    rw [enrichOne_sku_id, hs, pyOrStr_truthy (by simp [strTruthy, hne])]
  · intro hf
    rw [enrichOne_sku_id, pyOrStr_falsy hf]
  · intro s hs hne
    rw [enrichOne_nombre_categoria]
    cases hch : chooseCrumb crumbs (pyStr p.url_producto) with
    | none => simpa using hs
    | some c =>
        simp only []
        rw [hs, pyOrStr_truthy (by simp [strTruthy, hne])]
  · intro c hch hf
    rw [enrichOne_nombre_categoria, hch]
    exact pyOrStr_falsy hf
  · intro s hs hne
    rw [enrichOne_categoria_id]
    cases hch : chooseCrumb crumbs (pyStr p.url_producto) with
    | none => simpa using hs
    | some c =>
        simp only []
        rw [hs, pyOrStr_truthy (by simp [strTruthy, hne])]
  · intro c hch hf
    rw [enrichOne_categoria_id, hch]
    exact pyOrStr_falsy hf
  · intro x hx
    rw [enrichOne_precio, hx]
  · intro hx
    rw [enrichOne_precio, hx]

/-- Claim C4, witness: the spec example.  A product with
`marca = some "Acme"` keeps it against detail value "Other"; a product
with null `marca` takes "Other". -/
theorem C4_fill_rules_amended_witness :
    (enrichOne { marca := some "Acme" } [] (some { marca := some "Other" })).marca
      = some "Acme" ∧
    (enrichOne { marca := none } [] (some { marca := some "Other" })).marca
      = some "Other" := by
  constructor
  · exact (C4_fill_rules_amended { marca := some "Acme" } [] { marca := some "Other" }).1
      "Acme" rfl (by decide)
  · have h := (C4_fill_rules_amended { marca := none } [] { marca := some "Other" }).2.1
      (by decide)
    exact h.trans (by decide)

/-- The category-crumb choice as the specification words it: filter out
crumbs whose lower-cased slug is empty, "home", or equal to the trailing
URL path segment of the product URL; choose the last remaining
candidate; if none remain, the second-to-last raw crumb when at least
two crumbs exist, otherwise the last raw crumb. -/
def chooseCrumbSpec (crumbs : List Crumb) (urlStr : String) : Option Crumb :=
  if crumbs = [] then none
  else
    let remaining := crumbs.filter (fun c =>
      !(crumbSlugLower c == "" || crumbSlugLower c == "home"
        || crumbSlugLower c == prodSlug urlStr))
    match remaining.getLast? with
    | some c => some c
    | none =>
        if crumbs.length ≥ 2 then crumbs[crumbs.length - 2]? else crumbs.getLast?

/-- Claim C8: the enrichment category heuristic filters out crumbs whose
lower-cased slug is empty, "home", or equal to the trailing URL path
segment, then chooses the last remaining candidate, falling back to the
second-to-last raw crumb (two or more crumbs) or the last raw crumb;
and on crumbs home / tools / acme-hammer-2000 with a product URL ending
in /acme-hammer-2000 it chooses the "tools" crumb. -/
theorem C8_breadcrumb_heuristic :
    (∀ (crumbs : List Crumb) (urlStr : String),
      chooseCrumb crumbs urlStr = chooseCrumbSpec crumbs urlStr) ∧
    chooseCrumb
        [{ name := some "Home", slug := some "home" },
         { name := some "Tools", slug := some "tools" },
         { name := some "Acme Hammer", slug := some "acme-hammer-2000" }]
        "https://x.com/acme-hammer-2000"
      = some { name := some "Tools", slug := some "tools" } := by
  constructor
  · intro crumbs urlStr
    have hfl : crumbCandidates crumbs (prodSlug urlStr)
        = crumbs.filter (fun c => !(crumbSlugLower c == "" || crumbSlugLower c == "home"
            || crumbSlugLower c == prodSlug urlStr)) := by
      unfold crumbCandidates
      congr 1
      funext c
      simp only [Bool.or_comm, Bool.or_left_comm, Bool.or_assoc]
    simp only [chooseCrumb, chooseCrumbSpec, List.isEmpty_iff, hfl]
  · decide

/-- Claim C9: per-item failure isolation of `_enrich_from_detail`.  The
call is total (it returns a list of the same length — no exception
escapes, every task completes or fails), a failing item keeps exactly
its pre-enrichment value, and a succeeding item is enriched from its own
fetch result alone, unaffected by failures of other items. -/
theorem C9_enrichment_isolation :
    (∀ (fetch : Product → Except String (List Crumb × Option DetailData)) (ps : List Product),
      (enrichFromDetail fetch ps).length = ps.length) ∧
    (∀ (fetch : Product → Except String (List Crumb × Option DetailData))
        (ps : List Product) (i : Nat) (p : Product) (e : String),
      ps[i]? = some p → fetch p = .error e →
      (enrichFromDetail fetch ps)[i]? = some p) ∧
    (∀ (fetch : Product → Except String (List Crumb × Option DetailData))
        (ps : List Product) (i : Nat) (p : Product)
        (crumbs : List Crumb) (detail : Option DetailData),
      ps[i]? = some p → fetch p = .ok (crumbs, detail) →
      (enrichFromDetail fetch ps)[i]? = some (enrichOne p crumbs detail)) := by
  refine ⟨?_, ?_, ?_⟩
  · intro fetch ps
    simp [enrichFromDetail]
  · intro fetch ps i p e hi hf
    simp [enrichFromDetail, List.getElem?_map, hi, work, hf]
  · intro fetch ps i p crumbs detail hi hf
    simp [enrichFromDetail, List.getElem?_map, hi, work, hf]

/-- A concrete fetch oracle for the C9 witness: the detail fetch of the
product with URL u2 raises; every other fetch succeeds with no crumbs
and a detail record providing a brand. -/
def witnessFetch : Product → Except String (List Crumb × Option DetailData) :=
  fun p =>
    if p.url_producto = some "u2" then .error "boom"
    else .ok ([], some { marca := some "B" })

/-- Claim C9, witness: in a three-item batch whose middle item fails,
the batch keeps its length, the failing item is returned unchanged and
the first item is enriched. -/
theorem C9_enrichment_isolation_witness :
    (enrichFromDetail witnessFetch
        [{ url_producto := some "u1" }, { url_producto := some "u2" },
         { url_producto := some "u3" }]).length = 3 ∧
    (enrichFromDetail witnessFetch
        [{ url_producto := some "u1" }, { url_producto := some "u2" },
         { url_producto := some "u3" }])[1]?
      = some { url_producto := some "u2" } ∧
    (enrichFromDetail witnessFetch
        [{ url_producto := some "u1" }, { url_producto := some "u2" },
         { url_producto := some "u3" }])[0]?
      = some (enrichOne { url_producto := some "u1" } [] (some { marca := some "B" })) := by
  refine ⟨?_, ?_, ?_⟩
  · exact (C9_enrichment_isolation.1 witnessFetch _).trans (by decide)
  · exact C9_enrichment_isolation.2.1 witnessFetch _ 1 { url_producto := some "u2" } "boom"
      (by decide) rfl
  · exact C9_enrichment_isolation.2.2 witnessFetch _ 0 { url_producto := some "u1" }
      [] (some { marca := some "B" }) (by decide) rfl

/-! Pagination crawl: URL dedup and termination. -/

/-- Number of products of a list whose canonical URL key is `u`. -/
def countUrl (u : String) (l : List Product) : Nat :=
  l.countP (fun it => urlKey it == u)

lemma countUrl_append (u : String) (l₁ l₂ : List Product) :
    countUrl u (l₁ ++ l₂) = countUrl u l₁ + countUrl u l₂ :=
  List.countP_append _ _ _

lemma countUrl_filter_of_mem (u : String) (seen : List String) (pg : List Product)
    (hu : u ∈ seen) :
    countUrl u (pg.filter (fun it => decide (urlKey it ∉ seen))) = 0 := by
  unfold countUrl
  rw [List.countP_filter]
  apply List.countP_eq_zero.mpr
  intro a _ h
  simp only [Bool.and_eq_true, beq_iff_eq, decide_eq_true_eq] at h
  exact h.2 (h.1 ▸ hu)

lemma countUrl_filter_of_not_mem (u : String) (seen : List String) (pg : List Product)
    (hu : u ∉ seen) :
    countUrl u (pg.filter (fun it => decide (urlKey it ∉ seen))) = countUrl u pg := by
  unfold countUrl
  rw [List.countP_filter]
  apply List.countP_congr
  intro a _
  constructor
  · intro h
    simp only [Bool.and_eq_true] at h
    exact h.1
  · intro h
    simp only [beq_iff_eq] at h
    simp [h, hu]

lemma countUrl_eq_zero_of_not_mem (u : String) (pg : List Product)
    (hu : ¬ pg.any (fun it => urlKey it == u)) : countUrl u pg = 0 := by
  unfold countUrl
  apply List.countP_eq_zero.mpr
  intro a ha h
  exact hu (List.any_eq_true.mpr ⟨a, ha, h⟩)

/-- The count of a URL in the crawl result, as a function of the first
processed page containing it: a URL already seen contributes nothing
more, a fresh URL contributes the full count of the first page carrying
it (including intra-page duplicates). -/
lemma scrapeAllGo_countUrl (u : String) :
    ∀ (pages : List (List Product)) (page : Nat) (seen : List String)
      (coll : List Product), (∀ pg ∈ pages, pg ≠ []) →
    countUrl u (scrapeAllGo 0 page pages seen coll).1
      = countUrl u coll +
        (if u ∈ seen then 0
         else
           match pages.find? (fun pg => pg.any (fun it => urlKey it == u)) with
           | some pg => countUrl u pg
           | none => 0) := by
  intro pages
  induction pages with
  | nil =>
      intro page seen coll _
      simp [scrapeAllGo]
  | cons pg rest ih =>
      intro page seen coll hne
      have hpg : pg ≠ [] := hne pg (List.mem_cons_self pg rest)
      have hrest : ∀ q ∈ rest, q ≠ [] := fun q hq => hne q (List.mem_cons_of_mem pg hq)
      simp only [scrapeAllGo, ne_eq, not_true_eq_false, false_and, if_false, hpg,
        if_neg hpg]
      rw [ih (page + 1) (seen ++ pg.map urlKey) (coll ++ pg.filter (fun it => decide (urlKey it ∉ seen))) hrest]
      rw [countUrl_append]
      by_cases hu : u ∈ seen
      · have h1 : u ∈ seen ++ pg.map urlKey := List.mem_append_left _ hu
        rw [if_pos hu, if_pos h1, countUrl_filter_of_mem u seen pg hu]
      · rw [if_neg hu]
        by_cases hin : pg.any (fun it => urlKey it == u)
        · have hfind : (pg :: rest).find? (fun q => q.any (fun it => urlKey it == u))
              = some pg := by
            rw [List.find?_cons]
            simp [hin]
          rw [hfind]
          have h1 : u ∈ seen ++ pg.map urlKey := by
            apply List.mem_append_right
            obtain ⟨a, ha, hb⟩ := List.any_eq_true.mp hin
            simp only [beq_iff_eq] at hb
            exact hb ▸ List.mem_map_of_mem urlKey ha
          rw [if_pos h1, countUrl_filter_of_not_mem u seen pg hu]
          simp
        · have hfind : (pg :: rest).find? (fun q => q.any (fun it => urlKey it == u))
              = rest.find? (fun q => q.any (fun it => urlKey it == u)) := by
            rw [List.find?_cons]
            simp only [Bool.not_eq_true] at hin
            simp [hin]
          rw [hfind]
          have h0 : countUrl u pg = 0 := countUrl_eq_zero_of_not_mem u pg (by simpa using hin)
          have h1 : u ∉ seen ++ pg.map urlKey := by
            intro hmem
            rcases List.mem_append.mp hmem with h | h
            · exact hu h
            · obtain ⟨a, ha, hb⟩ := List.mem_map.mp h
              apply hin
              exact List.any_eq_true.mpr ⟨a, ha, by simp [hb]⟩
          rw [if_neg h1]
          have h2 : countUrl u (pg.filter (fun it => decide (urlKey it ∉ seen)))
              = 0 := by
            rw [countUrl_filter_of_not_mem u seen pg hu, h0]
          rw [h2]
          omega

/-- Claim C2, counterexample to the claim as stated: the same URL twice
within the same page batch yields two products, not one — the seen set
is updated only after the batch is filtered, so intra-batch duplicates
are not deduplicated. -/
theorem C2_counterexample :
    countUrl "u" (scrape_all 0 [[{ url_producto := some "u" }, { url_producto := some "u" }]])
        = 2 ∧
    countUrl "u" (scrape_all 0 [[{ url_producto := some "u" }, { url_producto := some "u" }]])
        ≠ 1 := by
  constructor
  · decide
  · decide

/-- Claim C2, amended: across pages the dedup works as claimed — the
result count of a URL equals its count in the first processed page
containing it, so a URL fed on two different pages yields only its
first-page occurrences, and subsequent pages are unaffected by
reprocessing already-seen URLs (every item of a processed batch is
marked seen regardless of novelty).  Within one page batch, however,
duplicates are NOT collapsed: the same URL twice on the same page
yields two products. -/
theorem C2_url_dedup_amended :
    ∀ (pages : List (List Product)) (u : String), (∀ pg ∈ pages, pg ≠ []) →
    countUrl u (scrape_all 0 pages)
      = match pages.find? (fun pg => pg.any (fun it => urlKey it == u)) with
        | some pg => countUrl u pg
        | none => 0 := by
  intro pages u hne
  unfold scrape_all
  rw [scrapeAllGo_countUrl u pages 1 [] [] hne]
  simp [countUrl]

/-- Claim C2, witness: a URL appearing once on page 1 and once on page 2
yields exactly one product; a URL appearing twice on page 2 (its first
page) yields two. -/
theorem C2_url_dedup_amended_witness :
    countUrl "a" (scrape_all 0
        [[{ url_producto := some "a" }],
         [{ url_producto := some "a" }, { url_producto := some "b" },
          { url_producto := some "b" }]]) = 1 ∧
    countUrl "b" (scrape_all 0
        [[{ url_producto := some "a" }],
         [{ url_producto := some "a" }, { url_producto := some "b" },
          { url_producto := some "b" }]]) = 2 := by
  constructor
  · exact (C2_url_dedup_amended _ "a" (by decide)).trans (by decide)
  · exact (C2_url_dedup_amended _ "b" (by decide)).trans (by decide)

/-- The URL-deduplicated union of a list of pages, as the specification
words it: walk the pages in order, append the items whose URL has not
been seen on an earlier page, and mark every item of each page as seen. -/
def dedupUnionGo : List (List Product) → List String → List Product → List Product
  | [], _, acc => acc
  | pg :: rest, seen, acc =>
      dedupUnionGo rest (seen ++ pg.map urlKey)
        (acc ++ pg.filter (fun it => decide (urlKey it ∉ seen)))

/-- The URL-deduplicated union of the items of the given pages. -/
def dedupUnion (pages : List (List Product)) : List Product :=
  dedupUnionGo pages [] []

/-- Running the crawl loop on pages that are all nonempty, followed by an
empty page and arbitrary junk, collects exactly the deduplicated union
of the nonempty pages and requests exactly the pages up to and including
the empty one. -/
lemma scrapeAllGo_terminates (junk : List (List Product)) :
    ∀ (firstPages : List (List Product)) (page : Nat) (seen : List String)
      (coll : List Product), (∀ pg ∈ firstPages, pg ≠ []) →
    scrapeAllGo 0 page (firstPages ++ [] :: junk) seen coll
      = (dedupUnionGo firstPages seen coll, List.range' page (firstPages.length + 1)) := by
  intro firstPages
  induction firstPages with
  | nil =>
      intro page seen coll _
      simp [scrapeAllGo, dedupUnionGo, List.range']
  | cons pg rest ih =>
      intro page seen coll hne
      have hpg : pg ≠ [] := hne pg (List.mem_cons_self pg rest)
      have hrest : ∀ q ∈ rest, q ≠ [] := fun q hq => hne q (List.mem_cons_of_mem pg hq)
      simp only [List.cons_append, scrapeAllGo, ne_eq, not_true_eq_false, false_and,
        if_false, if_neg hpg, List.append_eq]
      rw [ih (page + 1) (seen ++ pg.map urlKey)
        (coll ++ pg.filter (fun it => decide (urlKey it ∉ seen))) hrest]
      simp [dedupUnionGo, List.length_cons, List.range'_succ]

/-- When a maximum page count is configured (nonzero), every requested
page number is at most that maximum. -/
lemma scrapeAllGo_maxPages (maxPages : Nat) (hmp : maxPages ≠ 0) :
    ∀ (pages : List (List Product)) (page : Nat) (seen : List String)
      (coll : List Product) (r : Nat),
      r ∈ (scrapeAllGo maxPages page pages seen coll).2 → r ≤ maxPages := by
  intro pages
  induction pages with
  | nil =>
      intro page seen coll r hr
      by_cases h : page > maxPages
      · simp [scrapeAllGo, hmp, h] at hr
      · simp [scrapeAllGo, hmp, h] at hr
        omega
  | cons pg rest ih =>
      intro page seen coll r hr
      by_cases h : page > maxPages
      · simp [scrapeAllGo, hmp, h] at hr
      · by_cases hpg : pg = []
        · simp [scrapeAllGo, hmp, h, hpg] at hr
          omega
        · simp only [scrapeAllGo, hmp, ne_eq, not_false_eq_true, true_and, if_neg h,
            if_neg hpg] at hr
          rcases List.mem_cons.mp hr with h1 | h1
          · omega
          · exact ih (page + 1) _ _ r h1

/-- Claim C6: if page K is the first page with zero extracted items, the
crawl returns exactly the URL-deduplicated union of pages 1..K-1,
requests exactly pages 1..K (so never page K+1); and when a maximum
page count is configured, no page above that maximum is ever
requested. -/
theorem C6_pagination_termination :
    (∀ (firstPages junk : List (List Product)), (∀ pg ∈ firstPages, pg ≠ []) →
      scrape_all 0 (firstPages ++ [] :: junk) = dedupUnion firstPages ∧
      scrapeAllRequested 0 (firstPages ++ [] :: junk)
        = List.range' 1 (firstPages.length + 1) ∧
      firstPages.length + 2 ∉ scrapeAllRequested 0 (firstPages ++ [] :: junk)) ∧
    (∀ (maxPages : Nat) (pages : List (List Product)), maxPages ≠ 0 →
      ∀ r ∈ scrapeAllRequested maxPages pages, r ≤ maxPages) := by
  constructor
  · intro firstPages junk hne
    have h := scrapeAllGo_terminates junk firstPages 1 [] [] hne
    refine ⟨?_, ?_, ?_⟩
    · unfold scrape_all dedupUnion
      rw [h]
    · unfold scrapeAllRequested
      rw [h]
    · unfold scrapeAllRequested
      rw [h]
      intro hmem
      have := List.mem_range'_1.mp hmem
      omega
  · intro maxPages pages hmp r hr
    exact scrapeAllGo_maxPages maxPages hmp pages 1 [] [] r hr

/-- Claim C6, witness: two nonempty pages, then an empty page, then a
junk page.  The crawl returns the dedup union of the two pages,
requests pages 1, 2, 3 and not page 4; with a configured maximum of 1,
every requested page is at most 1. -/
theorem C6_pagination_termination_witness :
    scrape_all 0
        [[{ url_producto := some "a" }], [{ url_producto := some "b" }], [],
         [{ url_producto := some "c" }]]
      = dedupUnion [[{ url_producto := some "a" }], [{ url_producto := some "b" }]] ∧
    scrapeAllRequested 0
        [[{ url_producto := some "a" }], [{ url_producto := some "b" }], [],
         [{ url_producto := some "c" }]] = [1, 2, 3] ∧
    (4 : Nat) ∉ scrapeAllRequested 0
        [[{ url_producto := some "a" }], [{ url_producto := some "b" }], [],
         [{ url_producto := some "c" }]] ∧
    (∀ r ∈ scrapeAllRequested 1
        [[{ url_producto := some "a" }], [{ url_producto := some "b" }], [],
         [{ url_producto := some "c" }]], r ≤ 1) := by
  have h := C6_pagination_termination.1
    [[{ url_producto := some "a" }], [{ url_producto := some "b" }]]
    [[{ url_producto := some "c" }]] (by decide)
  refine ⟨h.1, (h.2.1).trans (by decide), ?_, ?_⟩
  · exact h.2.2
  · intro r hr
    exact C6_pagination_termination.2 1 _ (by decide) r hr

/-! Windowed search: SKU dedup invariant. -/

/-- The SKUs present in a product list, in order. -/
def skusOf (l : List Product) : List String := l.filterMap Product.sku_id

/-- Invariant of the SKU dedup state: every collected product carries a
nonempty SKU that has been marked seen, and no SKU occurs twice in the
collected list. -/
def SkuInv (seen : List String) (acc : List Product) : Prop :=
  (∀ p ∈ acc, ∃ s, p.sku_id = some s ∧ s ≠ "" ∧ s ∈ seen) ∧ (skusOf acc).Nodup

/-- What the dedup guarantees about a finished result list: every product
carries a nonempty SKU and no SKU occurs twice. -/
def ResultOk (l : List Product) : Prop :=
  (∀ p ∈ l, ∃ s, p.sku_id = some s ∧ s ≠ "") ∧ (skusOf l).Nodup

lemma SkuInv.resultOk {seen : List String} {acc : List Product} (h : SkuInv seen acc) :
    ResultOk acc :=
  ⟨fun p hp => by obtain ⟨s, h1, h2, _⟩ := h.1 p hp; exact ⟨s, h1, h2⟩, h.2⟩

lemma skusOf_append (l₁ l₂ : List Product) : skusOf (l₁ ++ l₂) = skusOf l₁ ++ skusOf l₂ :=
  List.filterMap_append l₁ l₂ Product.sku_id

lemma skuStep_inv (st : List String × List Product) (p : Product)
    (h : SkuInv st.1 st.2) : SkuInv (skuStep st p).1 (skuStep st p).2 := by
  obtain ⟨h1, h2⟩ := h
  unfold skuStep
  cases hsku : p.sku_id with
  | none => exact ⟨h1, h2⟩
  | some sku =>
      dsimp only
      by_cases hc : sku ≠ "" ∧ sku ∉ st.1
      · rw [if_pos hc]
        refine ⟨?_, ?_⟩
        · intro q hq
          rcases List.mem_append.mp hq with hmem | hmem
          · obtain ⟨s, hs1, hs2, hs3⟩ := h1 q hmem
            exact ⟨s, hs1, hs2, List.mem_cons_of_mem _ hs3⟩
          · rw [List.mem_singleton.mp hmem]
            exact ⟨sku, hsku, hc.1, List.mem_cons_self _ _⟩
        · rw [skusOf_append]
          have hsingle : skusOf [p] = [sku] := by simp [skusOf, hsku]
          rw [hsingle]
          rw [List.nodup_append]
          refine ⟨h2, List.nodup_singleton _, ?_⟩
          intro a ha hb
          rw [List.mem_singleton.mp hb] at ha
          obtain ⟨q, hq1, hq2⟩ := List.mem_filterMap.mp ha
          obtain ⟨s, hs1, _, hs3⟩ := h1 q hq1
          rw [hs1] at hq2
          exact hc.2 ((Option.some_inj.mp hq2) ▸ hs3)
      · rw [if_neg hc]
        exact ⟨h1, h2⟩

lemma foldl_skuStep_inv :
    ∀ (l : List Product) (st : List String × List Product), SkuInv st.1 st.2 →
      SkuInv (l.foldl skuStep st).1 (l.foldl skuStep st).2 := by
  intro l
  induction l with
  | nil => intro st h; exact h
  | cons p t ih =>
      intro st h
      simp only [List.foldl_cons]
      exact ih (skuStep st p) (skuStep_inv st p h)

lemma vtexWindowedGo_ok {α : Type} (parseF : List α → List Product) (pageSize : Nat) :
    ∀ (ws : List (WinResp α)) (seen : List String) (coll : List Product)
      (l : List Product), SkuInv seen coll →
      vtexWindowedGo parseF pageSize ws seen coll = .ok l → ResultOk l := by
  intro ws
  induction ws with
  | nil =>
      intro seen coll l hinv h
      simp only [vtexWindowedGo, Except.ok.injEq] at h
      exact h ▸ hinv.resultOk
  | cons w rest ih =>
      intro seen coll l hinv h
      simp only [vtexWindowedGo] at h
      by_cases hbad : isBadRange w.status = true
      · rw [if_pos hbad] at h
        simp only [Except.ok.injEq] at h
        exact h ▸ hinv.resultOk
      · rw [if_neg hbad] at h
        by_cases hsucc : isSuccess w.status = true
        · rw [if_neg (by simp [hsucc])] at h
          by_cases hempty : w.body.isEmpty = true
          · rw [if_pos hempty] at h
            simp only [Except.ok.injEq] at h
            exact h ▸ hinv.resultOk
          · rw [if_neg hempty] at h
            have hst := foldl_skuStep_inv (parseF w.body) (seen, coll) hinv
            by_cases hshort : w.body.length < pageSize
            · rw [if_pos hshort] at h
              simp only [Except.ok.injEq] at h
              exact h ▸ hst.resultOk
            · rw [if_neg hshort] at h
              exact ih _ _ l hst h
        · rw [if_pos (by simp [hsucc])] at h
          exact absurd h (by simp)

lemma skuStep_append (seen : List String) (coll acc : List Product) (p : Product) :
    skuStep (seen, coll ++ acc) p
      = ((skuStep (seen, acc) p).1, coll ++ (skuStep (seen, acc) p).2) := by
  unfold skuStep
  cases p.sku_id with
  | none => rfl
  | some sku =>
      dsimp only
      by_cases hc : sku ≠ "" ∧ sku ∉ seen
      · rw [if_pos hc, if_pos hc]
        simp
      · rw [if_neg hc, if_neg hc]

lemma foldl_skuStep_append :
    ∀ (l : List Product) (seen : List String) (coll acc : List Product),
      l.foldl skuStep (seen, coll ++ acc)
        = ((l.foldl skuStep (seen, acc)).1, coll ++ (l.foldl skuStep (seen, acc)).2) := by
  intro l
  induction l with
  | nil => intro seen coll acc; rfl
  | cons p t ih =>
      intro seen coll acc
      simp only [List.foldl_cons]
      rw [skuStep_append]
      rcases hst : skuStep (seen, acc) p with ⟨s2, a2⟩
      dsimp only
      exact ih s2 coll a2

/-- The two windowed loops of the service compute the same function: the
only difference in the source is that `scrape_vtex_rest` accumulates the
new rows of a window separately before extending the collected list. -/
lemma scrapeVtexRestGo_eq {α : Type} (parseF : List α → List Product) (pageSize : Nat) :
    ∀ (ws : List (WinResp α)) (seen : List String) (coll : List Product),
      scrapeVtexRestGo parseF pageSize ws seen coll
        = vtexWindowedGo parseF pageSize ws seen coll := by
  intro ws
  induction ws with
  | nil => intro seen coll; rfl
  | cons w rest ih =>
      intro seen coll
      by_cases hbad : isBadRange w.status = true
      · simp [scrapeVtexRestGo, vtexWindowedGo, hbad]
      · by_cases hsucc : isSuccess w.status = true
        · by_cases hemp : w.body = []
          · simp [scrapeVtexRestGo, vtexWindowedGo, hbad, hsucc, hemp]
          · have hfold := foldl_skuStep_append (parseF w.body) seen coll []
            rw [List.append_nil] at hfold
            by_cases hshort : w.body.length < pageSize
            · simp [scrapeVtexRestGo, vtexWindowedGo, hbad, hsucc, hemp, hshort, hfold,
                List.length_eq_zero, List.isEmpty_iff]
            · simp [scrapeVtexRestGo, vtexWindowedGo, hbad, hsucc, hemp, hshort, hfold,
                List.length_eq_zero, List.isEmpty_iff, ih]
        · simp [scrapeVtexRestGo, vtexWindowedGo, hbad, hsucc]

/-- Claim C1, counterexample to the claim as stated: an item whose
`sku_id` is missing is NOT kept — both windowed loops drop it, because
the dedup step only appends items with a truthy SKU.  A single success
window holding one SKU-less item yields an empty result. -/
theorem C1_counterexample :
    ({ url_producto := some "u" } : Product).sku_id = none ∧
    vtexWindowedSearch (fun l : List Product => l) 2
        [⟨200, [{ url_producto := some "u" }]⟩] = .ok [] ∧
    scrapeVtexRestGo (fun l : List Product => l) 2
        [⟨200, [{ url_producto := some "u" }]⟩] [] [] = .ok [] :=
  ⟨rfl, rfl, rfl⟩

/-- Claim C1, amended: dedup in the windowed REST search is keyed by
`sku_id`, but an item with a missing (or empty) `sku_id` is always
DROPPED, never kept; an item whose SKU was already seen earlier in the
same search is dropped.  Hence every returned item has a nonempty SKU
and no SKU occurs twice in the result — in both `scrape_vtex_rest` and
`_vtex_windowed_search`. -/
theorem C1_windowed_dedup_amended :
    ∀ {α : Type} (parseF : List α → List Product) (pageSize : Nat)
      (ws : List (WinResp α)) (l : List Product),
    (vtexWindowedSearch parseF pageSize ws = .ok l → ResultOk l) ∧
    (scrapeVtexRestGo parseF pageSize ws [] [] = .ok l → ResultOk l) := by
  intro α parseF pageSize ws l
  constructor
  · intro h
    exact vtexWindowedGo_ok parseF pageSize ws [] [] l
      ⟨fun p hp => absurd hp (List.not_mem_nil p), List.nodup_nil⟩ h
  · intro h
    rw [scrapeVtexRestGo_eq] at h
    exact vtexWindowedGo_ok parseF pageSize ws [] [] l
      ⟨fun p hp => absurd hp (List.not_mem_nil p), List.nodup_nil⟩ h

/-- Claim C1, witness: two windows where the second window repeats the
SKU of the first and also carries a SKU-less item; the search returns
only the first occurrence, whose SKU list is duplicate-free. -/
theorem C1_windowed_dedup_amended_witness :
    ResultOk [{ sku_id := some "A" }] := by
  have h := (C1_windowed_dedup_amended (fun l : List Product => l) 2
    [⟨200, [{ sku_id := some "A" }, { sku_id := some "A" }]⟩,
     ⟨200, [{ url_producto := some "u" }]⟩]
    [{ sku_id := some "A" }]).1
  exact h rfl

lemma isBadRange_eq_false_of_isSuccess {s : Nat} (h : isSuccess s = true) :
    isBadRange s = false := by
  simp only [isSuccess, Bool.and_eq_true, decide_eq_true_eq] at h
  simp only [isBadRange, Bool.or_eq_false_iff, beq_eq_false_iff_ne, ne_eq]
  omega

/-- Claim C5: the per-window stop conditions of the windowed search, in
both `scrape_vtex_rest` and `_vtex_windowed_search`: a bad-range status
(400/416) ends the search gracefully with the collected items; a
success response with an empty payload ends it; a success window with
strictly fewer items than the window size ends the search after that
window, its items dedup-merged into the result; and any other
non-success response is a fatal error carrying the status. -/
theorem C5_window_stop_conditions :
    ∀ {α : Type} (parseF : List α → List Product) (pageSize : Nat) (w : WinResp α)
      (rest : List (WinResp α)) (seen : List String) (coll : List Product),
    (isBadRange w.status = true →
      vtexWindowedGo parseF pageSize (w :: rest) seen coll = .ok coll ∧
      scrapeVtexRestGo parseF pageSize (w :: rest) seen coll = .ok coll) ∧
    (isSuccess w.status = true → w.body = [] →
      vtexWindowedGo parseF pageSize (w :: rest) seen coll = .ok coll ∧
      scrapeVtexRestGo parseF pageSize (w :: rest) seen coll = .ok coll) ∧
    (isSuccess w.status = true → w.body ≠ [] → w.body.length < pageSize →
      vtexWindowedGo parseF pageSize (w :: rest) seen coll
        = .ok ((parseF w.body).foldl skuStep (seen, coll)).2 ∧
      scrapeVtexRestGo parseF pageSize (w :: rest) seen coll
        = .ok (coll ++ ((parseF w.body).foldl skuStep (seen, [])).2)) ∧
    (isBadRange w.status = false → isSuccess w.status = false →
      vtexWindowedGo parseF pageSize (w :: rest) seen coll = .error w.status ∧
      scrapeVtexRestGo parseF pageSize (w :: rest) seen coll = .error w.status) := by
  intro α parseF pageSize w rest seen coll
  refine ⟨?_, ?_, ?_, ?_⟩
  · intro hbad
    constructor
    · simp [vtexWindowedGo, hbad]
    · simp [scrapeVtexRestGo, hbad]
  · intro hsucc hemp
    have hbad := isBadRange_eq_false_of_isSuccess hsucc
    constructor
    · simp [vtexWindowedGo, hbad, hsucc, hemp]
    · simp [scrapeVtexRestGo, hbad, hsucc, hemp]
  · intro hsucc hemp hshort
    have hbad := isBadRange_eq_false_of_isSuccess hsucc
    constructor
    · simp [vtexWindowedGo, hbad, hsucc, hemp, hshort, List.isEmpty_iff]
    · simp [scrapeVtexRestGo, hbad, hsucc, hemp, hshort, List.length_eq_zero]
  · intro hbad hfail
    constructor
    · simp [vtexWindowedGo, hbad, hfail]
    · simp [scrapeVtexRestGo, hbad, hfail]

/-- Window items with pairwise distinct SKUs for the C5 witness. -/
def mkItems (n : Nat) : List Product :=
  (List.range n).map (fun i => { sku_id := some ("s" ++ toString i) })

set_option maxRecDepth 4000 in
/-- Claim C5, witness: the spec example — window size 50, a success
window of 32 items ends the search after that window (the following
window is never consumed) and all 32 items are in the result. -/
theorem C5_window_stop_conditions_witness :
    vtexWindowedGo (fun l : List Product => l) 50
        (⟨200, mkItems 32⟩ :: [⟨200, mkItems 60⟩]) [] []
      = .ok ((mkItems 32).foldl skuStep ([], [])).2 ∧
    ((mkItems 32).foldl skuStep ([], [])).2.length = 32 := by
  constructor
  · exact ((C5_window_stop_conditions (fun l : List Product => l) 50 ⟨200, mkItems 32⟩
      [⟨200, mkItems 60⟩] [] []).2.2.1 rfl (by decide) (by decide)).1
  · decide

/-! Cap-aware deep search. -/

lemma deepShardsGo_trace {α : Type} (sw : String → List (WinResp α))
    (parseF : List α → List Product) (pageSize : Nat) :
    ∀ (leaves : List Leaf) (seen : List String) (coll : List Product)
      (ranIds : List String) (tr : DeepTrace),
      deepShardsGo sw parseF pageSize leaves seen coll ranIds = .ok tr →
      tr.facetFetches = 1 ∧ tr.shardLeafIds = ranIds.reverse ++ leaves.map Leaf.id := by
  intro leaves
  induction leaves with
  | nil =>
      intro seen coll ranIds tr h
      simp only [deepShardsGo, Except.ok.injEq] at h
      rw [← h]
      simp
  | cons leaf rest ih =>
      intro seen coll ranIds tr h
      simp only [deepShardsGo] at h
      cases hws : vtexWindowedSearch parseF pageSize (sw leaf.id) with
      | error s =>
          rw [hws] at h
          exact absurd h (by simp)
      | ok shard =>
          rw [hws] at h
          dsimp only at h
          obtain ⟨h1, h2⟩ := ih _ _ (leaf.id :: ranIds) tr h
          refine ⟨h1, ?_⟩
          rw [h2]
          simp

lemma deepShardsGo_ok {α : Type} (sw : String → List (WinResp α))
    (parseF : List α → List Product) (pageSize : Nat) :
    ∀ (leaves : List Leaf) (seen : List String) (coll : List Product)
      (ranIds : List String) (tr : DeepTrace), SkuInv seen coll →
      deepShardsGo sw parseF pageSize leaves seen coll ranIds = .ok tr →
      ResultOk tr.results := by
  intro leaves
  induction leaves with
  | nil =>
      intro seen coll ranIds tr hinv h
      simp only [deepShardsGo, Except.ok.injEq] at h
      rw [← h]
      exact hinv.resultOk
  | cons leaf rest ih =>
      intro seen coll ranIds tr hinv h
      simp only [deepShardsGo] at h
      cases hws : vtexWindowedSearch parseF pageSize (sw leaf.id) with
      | error s =>
          rw [hws] at h
          exact absurd h (by simp)
      | ok shard =>
          rw [hws] at h
          dsimp only at h
          exact ih _ _ (leaf.id :: ranIds) tr
            (foldl_skuStep_inv shard (seen, coll) hinv) h

lemma ResultOk.seedInv {gr : List Product} (h : ResultOk gr) :
    SkuInv ((skusOf gr).filter (fun s => s ≠ "")) gr := by
  refine ⟨?_, h.2⟩
  intro p hp
  obtain ⟨s, h1, h2⟩ := h.1 p hp
  refine ⟨s, h1, h2, List.mem_filter.mpr ⟨List.mem_filterMap.mpr ⟨p, hp, h1⟩, by simp [h2]⟩⟩

/-- Claim C3: the cap check of `scrape_vtex_rest_deep`.  When the global
windowed pass yields strictly fewer than 2400 items (e.g. 2399), it is
returned as-is, the facet endpoint is not consulted and no shard pass
runs; when it yields 2400 or more, the facet endpoint is consulted once
and one shard windowed pass runs per leaf, in order. -/
theorem C3_cap_detection :
    ∀ {α : Type} (parseF : List α → List Product) (pageSize : Nat)
      (gw : List (WinResp α)) (leaves : List Leaf)
      (sw : String → List (WinResp α)) (gr : List Product),
    vtexWindowedSearch parseF pageSize gw = .ok gr →
    ((gr.length < 2400 →
        scrapeVtexRestDeep parseF pageSize gw leaves sw = .ok ⟨gr, 0, []⟩) ∧
     (gr.length = 2399 →
        scrapeVtexRestDeep parseF pageSize gw leaves sw = .ok ⟨gr, 0, []⟩) ∧
     (2400 ≤ gr.length →
        ∀ tr, scrapeVtexRestDeep parseF pageSize gw leaves sw = .ok tr →
          tr.facetFetches = 1 ∧ tr.shardLeafIds = leaves.map Leaf.id)) := by
  intro α parseF pageSize gw leaves sw gr h
  refine ⟨?_, ?_, ?_⟩
  · intro hlt
    unfold scrapeVtexRestDeep
    rw [h]
    dsimp only
    rw [if_pos hlt]
  · intro heq
    unfold scrapeVtexRestDeep
    rw [h]
    dsimp only
    rw [if_pos (by omega)]
  · intro hge tr htr
    unfold scrapeVtexRestDeep at htr
    rw [h] at htr
    dsimp only at htr
    rw [if_neg (by omega)] at htr
    have := deepShardsGo_trace sw parseF pageSize leaves _ gr [] tr htr
    simpa using this

/-- Claim C3, witness: an empty global pass (0 results, below 2400) is
returned as-is with no facet fetch and no shard passes, even though a
leaf is available. -/
theorem C3_cap_detection_witness :
    scrapeVtexRestDeep (fun l : List Product => l) 50 ([] : List (WinResp Product))
        [⟨"leaf1", none, none⟩] (fun _ => []) = .ok ⟨[], 0, []⟩ :=
  (C3_cap_detection (fun l : List Product => l) 50 [] [⟨"leaf1", none, none⟩]
    (fun _ => []) [] rfl).1 (by decide)

/-- Claim C7: the merged result of `scrape_vtex_rest_deep` is dedup-sound
— every product carries a nonempty SKU, no SKU occurs twice in the
final list (so a later shard never re-adds a SKU captured by the global
pass or an earlier shard). -/
theorem C7_deep_dedup :
    ∀ {α : Type} (parseF : List α → List Product) (pageSize : Nat)
      (gw : List (WinResp α)) (leaves : List Leaf)
      (sw : String → List (WinResp α)) (tr : DeepTrace),
    scrapeVtexRestDeep parseF pageSize gw leaves sw = .ok tr →
    ResultOk tr.results := by
  intro α parseF pageSize gw leaves sw tr htr
  unfold scrapeVtexRestDeep at htr
  cases hg : vtexWindowedSearch parseF pageSize gw with
  | error s =>
      rw [hg] at htr
      exact absurd htr (by simp)
  | ok gr =>
      rw [hg] at htr
      dsimp only at htr
      have hok : ResultOk gr := vtexWindowedGo_ok parseF pageSize gw [] [] gr
        ⟨fun p hp => absurd hp (List.not_mem_nil p), List.nodup_nil⟩ hg
      by_cases hlt : gr.length < 2400
      · rw [if_pos hlt] at htr
        simp only [Except.ok.injEq] at htr
        rw [← htr]
        exact hok
      · rw [if_neg hlt] at htr
        exact deepShardsGo_ok sw parseF pageSize leaves _ gr [] tr hok.seedInv htr

/-- Claim C7, witness: a one-window global pass returning a single
product with SKU B; the merged deep result carries it once with a
duplicate-free SKU list. -/
theorem C7_deep_dedup_witness :
    ResultOk [({ sku_id := some "B" } : Product)] :=
  C7_deep_dedup (fun l : List Product => l) 2
    [⟨200, [{ sku_id := some "B" }]⟩] [] (fun _ => [])
    ⟨[{ sku_id := some "B" }], 0, []⟩ rfl

end Scrape
